import Mathlib

/-!
Shallow embedding of `process_pdf.py` (PDF word/bbox extraction to JSON).

Conventions of the embedding:
* Python floats are modelled as exact rationals (`ℚ`).
* `round(x, 2)` is modelled by `round2`, round-half-to-even at two decimals,
  which is the rounding mode of Python's built-in `round`.
* The external library calls (`fitz.open`, `page.get_text("words")`,
  `str.isprintable`, `str.isspace`) are inputs of the model: a page supplies
  its height, width and raw word list, and the character classifiers are
  parameters `isprintable`, `isspace : Char → Bool`.
* File-system and exception behaviour is modelled by an explicit environment
  (`Env`) choosing where the Python code raises, and an `Outcome` record
  tracking the return value, whether the document was opened/closed, whether
  the output file exists afterwards, and the error diagnostic.
-/

/-- A raw word as returned by `page.get_text("words")`: bbox in top-left-origin
coordinates plus the word text (`w[0], w[1], w[2], w[3], w[4]` in the source). -/
structure RawWord where
  x0 : ℚ
  y0 : ℚ
  x1 : ℚ
  y1 : ℚ
  text : List Char
deriving DecidableEq, Repr

/-- A page as reported by the library: `page.rect.height`, `page.rect.width`,
and the raw word list. -/
structure RawPage where
  height : ℚ
  width : ℚ
  words : List RawWord
deriving DecidableEq, Repr

/-- The four-element bbox array `[x0, y0, x1, y1]` written to the JSON output
(bottom-left-origin coordinates). -/
structure BBox where
  x0 : ℚ
  y0 : ℚ
  x1 : ℚ
  y1 : ℚ
deriving DecidableEq, Repr

/-- One `{"text": ..., "bbox": [...]}` record of the output. -/
structure WordRec where
  text : List Char
  bbox : BBox
deriving DecidableEq, Repr

/-- One page record `{"page": ..., "width": ..., "height": ..., "words": [...]}`. -/
structure PageRec where
  page : ℕ
  width : ℚ
  height : ℚ
  words : List WordRec
deriving DecidableEq, Repr

/-- Round-half-to-even to an integer, the tie-breaking rule of Python's
built-in `round`. -/
def roundHalfEven (q : ℚ) : ℤ :=
  if q - q.floor < 1/2 then q.floor
  else if 1/2 < q - q.floor then q.floor + 1
  else if q.floor % 2 = 0 then q.floor else q.floor + 1

/-- Model of Python `round(x, 2)`: round-half-to-even at two decimal places. -/
def round2 (q : ℚ) : ℚ :=
  (roundHalfEven (100 * q) : ℚ) / 100

/-- Model of Python `str.strip()` on a character list: remove leading and
trailing characters satisfying `isspace`. -/
def stripChars (isspace : Char → Bool) (s : List Char) : List Char :=
  ((s.dropWhile isspace).reverse.dropWhile isspace).reverse

/-- Line 55 of the source: `''.join(char for char in word_text if
char.isprintable()).strip()`. -/
def cleanWord (isprintable isspace : Char → Bool) (s : List Char) : List Char :=
  stripChars isspace (s.filter isprintable)

/-- Body of the inner word loop (lines 51–70 of the source): clean the text,
skip the word when the cleaned text is empty, otherwise flip the bbox to
bottom-left origin and round each coordinate to two decimals. -/
def processWord (isprintable isspace : Char → Bool) (page_height : ℚ)
    (w : RawWord) : Option WordRec :=
  let cleaned_word := cleanWord isprintable isspace w.text
  if cleaned_word = [] then none
  else
    some { text := cleaned_word,
           bbox := { x0 := round2 w.x0,
                     y0 := round2 (page_height - w.y1),
                     x1 := round2 w.x1,
                     y1 := round2 (page_height - w.y0) } }

/-- Body of the page loop (lines 41–78): page record with 1-based page number,
rounded dimensions, and the filtered word list in source order. -/
def processPage (isprintable isspace : Char → Bool) (page_num : ℕ)
    (p : RawPage) : PageRec :=
  { page := page_num + 1,
    width := round2 p.width,
    height := round2 p.height,
    words := p.words.filterMap (processWord isprintable isspace p.height) }

/-- The page loop `for page_num in range(len(doc))` (lines 41–78), building the
JSON mapping as an association list keyed by `str(page_num + 1)`. -/
def buildPages (isprintable isspace : Char → Bool) :
    ℕ → List RawPage → List (String × PageRec)
  | _, [] => []
  | page_num, p :: rest =>
      (toString (page_num + 1), processPage isprintable isspace page_num p) ::
        buildPages isprintable isspace (page_num + 1) rest

/-- The full `json_data` mapping produced by a successful run over the
document's pages. -/
def buildJson (isprintable isspace : Char → Bool)
    (pages : List RawPage) : List (String × PageRec) :=
  buildPages isprintable isspace 0 pages

/-!
POSIX path helpers used by the script: `os.path.basename`, `os.path.dirname`,
`os.path.splitext`, `os.path.join`, modelled on character lists with `/` as
the separator and `.` as the extension separator, following the `posixpath`
algorithms.
-/

/-- `os.path.basename`: everything after the last `/` (empty when the path
ends in `/`). -/
def basename (p : String) : String :=
  ⟨(p.data.reverse.takeWhile (fun c => c ≠ '/')).reverse⟩

/-- `os.path.dirname`: everything up to the last `/`; trailing slashes are
stripped from the head unless the head consists only of slashes. -/
def dirname (p : String) : String :=
  let head := (p.data.reverse.dropWhile (fun c => c ≠ '/')).reverse
  if head ≠ [] ∧ head.any (fun c => c ≠ '/') then
    ⟨(head.reverse.dropWhile (fun c => c = '/')).reverse⟩
  else ⟨head⟩

/-- `os.path.splitext`: split off the extension at the last `.` occurring in
the basename, unless every character of the basename before that dot is
itself a dot (so dotfiles such as `.bashrc` have no extension). -/
def splitext (p : String) : String × String :=
  let cs := p.data
  let b := (cs.reverse.takeWhile (fun c => c ≠ '/')).reverse
  let pre := cs.take (cs.length - b.length)
  let revb := b.reverse
  let extRev := revb.takeWhile (fun c => c ≠ '.')
  if extRev.length = revb.length then (p, "")
  else
    let stem := (revb.drop (extRev.length + 1)).reverse
    if stem.any (fun c => c ≠ '.') then
      (⟨pre ++ stem⟩, ⟨'.' :: extRev.reverse⟩)
    else (p, "")

/-- `os.path.join` for two components (posixpath): an absolute second
component replaces the first; otherwise insert `/` unless the first component
is empty or already ends in `/`. -/
def joinPath (a b : String) : String :=
  if b.startsWith "/" then b
  else if a = "" ∨ a.endsWith "/" then a ++ b
  else a ++ "/" ++ b

/-- Lines 7–15 of the source, `sanitize_filename`: basename, drop the
extension, then `re.sub(r'[^\w-]', '_', ...)`. The regex class `\w`
(alphanumeric or underscore, per the regex engine's notion of alphanumeric)
is parametrised by `isalnum`. -/
def sanitize_filename (isalnum : Char → Bool) (filename : String) : String :=
  let bn := basename filename
  let name_without_ext := (splitext bn).1
  ⟨name_without_ext.data.map
    (fun c => if isalnum c || c = '_' || c = '-' then c else '_')⟩

/-- Modelled from the claim's words, for comparison with `sanitize_filename`:
first strip directory components and the extension, then replace every
character that is not alphanumeric, underscore, or hyphen with an
underscore. -/
def sanitizeSpec (isalnum : Char → Bool) (filename : String) : String :=
  let stem := (splitext (basename filename)).1
  ⟨stem.data.map
    (fun c => if ¬(isalnum c = true ∨ c = '_' ∨ c = '-') then '_' else c)⟩

/-- Lines 32–35 of the source: the output path is the input path with its
extension replaced by `.json`, in the same directory. -/
def outputPath (pdf_path : String) : String :=
  let pdf_dir := dirname pdf_path
  let pdf_basename := basename pdf_path
  let json_basename := (splitext pdf_basename).1 ++ ".json"
  joinPath pdf_dir json_basename

/-!
Effect model of `pdf_to_word_json` (lines 17–96). The environment `Env` fixes
the behaviour of the external world during one call: what `fitz.open` returns
(or that it raises), whether an exception is raised while processing some
page of the loop, how the output write behaves, and whether a file already
exists at the output path before the call.
-/

/-- Behaviour of the output write (lines 84–85): `open(...)` succeeds and
`json.dump` succeeds; `open(...)` raises (file not created); or `open(...)`
succeeds (file created/truncated) and `json.dump` raises. -/
inductive WriteBehavior where
  | ok
  | openFail
  | dumpFail
deriving DecidableEq, Repr

/-- External-world choices for one call of `pdf_to_word_json`. -/
structure Env where
  /-- `fitz.open` (line 39): `some pages` on success, `none` when it raises. -/
  openDoc : Option (List RawPage)
  /-- `some k`: an exception is raised while processing page `k` of the loop
  (only meaningful when `k` is a valid page index). -/
  failAtPage : Option ℕ
  /-- Behaviour of the output write (lines 84–85). -/
  write : WriteBehavior
  /-- Whether a file exists at the computed output path before the call. -/
  preExisting : Bool
deriving DecidableEq, Repr

/-- Observable outcome of one call of `pdf_to_word_json`. -/
structure Outcome where
  /-- The Python return value: `some output_filename` or `none` (`None`). -/
  retVal : Option String
  /-- Whether `fitz.open` succeeded, so the document was held open. -/
  docOpened : Bool
  /-- Whether `doc.close()` (line 81) ran before the call returned. -/
  docClosed : Bool
  /-- Whether a file exists at the output path after the call returns. -/
  fileExistsAfter : Bool
  /-- Whether the cleanup `os.remove` (line 94) actually deleted a file. -/
  removed : Bool
  /-- The path named in the `print(f"Error processing {pdf_path}: ...")`
  diagnostic (line 91), when the except branch ran. -/
  errorFor : Option String
  /-- The JSON mapping written on success. -/
  written : Option (List (String × PageRec))
deriving DecidableEq, Repr

/-- The except branch, lines 90–96: print the diagnostic naming `pdf_path`,
remove the output file if one exists at `output_filename`, return `None`.
`output_filename` is always a non-empty string here, so the
`if output_filename and os.path.exists(...)` guard reduces to the existence
test; after it, no file exists at the output path. -/
def exceptBranch (pdf_path : String) (fileNow docOpened docClosed : Bool) :
    Outcome :=
  { retVal := none,
    docOpened := docOpened,
    docClosed := docClosed,
    fileExistsAfter := false,
    removed := fileNow,
    errorFor := some pdf_path,
    written := none }

/-- The whole of `pdf_to_word_json` (lines 17–96) under environment `env`:
compute the output path, open the document, run the page loop, close the
document, write the JSON; any exception jumps to the except branch. Note that
`doc.close()` (line 81) is only reached when the page loop completes — an
exception inside the loop skips it, and there is no `finally`. -/
def runExtract (isprintable isspace : Char → Bool) (env : Env)
    (pdf_path : String) : Outcome :=
  let output_filename := outputPath pdf_path
  match env.openDoc with
  | none =>
      -- `fitz.open` raised; the loop never ran, no file was created.
      exceptBranch pdf_path env.preExisting false false
  | some pages =>
      let afterLoop : Outcome :=
        -- the loop completed; line 81 closes the document, then the write.
        match env.write with
        | WriteBehavior.ok =>
            { retVal := some output_filename,
              docOpened := true,
              docClosed := true,
              fileExistsAfter := true,
              removed := false,
              errorFor := none,
              written := some (buildJson isprintable isspace pages) }
        | WriteBehavior.openFail =>
            -- `open(output_filename, 'w')` raised: no file created by us.
            exceptBranch pdf_path env.preExisting true true
        | WriteBehavior.dumpFail =>
            -- the file was created/truncated, then `json.dump` raised.
            exceptBranch pdf_path true true true
      match env.failAtPage with
      | some k =>
          if k < pages.length then
            -- exception inside the page loop: `doc.close()` is skipped.
            exceptBranch pdf_path env.preExisting true false
          else afterLoop
      | none => afterLoop

/-- Whether the environment makes the call fail: `fitz.open` raises, some
valid page raises in the loop, or the output write fails. -/
def envFails (env : Env) : Prop :=
  env.openDoc = none ∨
    (∃ pages k, env.openDoc = some pages ∧ env.failAtPage = some k ∧
      k < pages.length) ∨
    env.write ≠ WriteBehavior.ok

/-- Model of Python `s.lower().endswith('.pdf')` (ASCII case fold). -/
def lowerEndsWithPdf (s : String) : Bool :=
  (s.map Char.toLower).endsWith ".pdf"

/-- One event of the argument-processing loop (lines 117–121). -/
inductive ArgEvent where
  /-- The argument passed validation and `pdf_to_word_json` ran, returning
  the given result. -/
  | processed (path : String) (result : Option String)
  /-- The argument failed validation and was skipped with the
  `"Skipping invalid path or non-PDF file"` diagnostic; extraction was never
  attempted. -/
  | skipped (path : String)
deriving DecidableEq, Repr

/-- The batch loop over `sys.argv[1:]` (lines 117–121): each argument is
checked with `os.path.isfile` (modelled by `isFile`) and the case-insensitive
`.pdf` test, then processed or skipped; the loop continues regardless of the
per-file result. -/
def runBatch (isprintable isspace : Char → Bool) (isFile : String → Bool)
    (envFor : String → Env) : List String → List ArgEvent
  | [] => []
  | a :: rest =>
      (if isFile a && lowerEndsWithPdf a then
        ArgEvent.processed a (runExtract isprintable isspace (envFor a) a).retVal
      else ArgEvent.skipped a) ::
        runBatch isprintable isspace isFile envFor rest

/-- Outcome of the no-arguments branch (lines 99–114). -/
structure NoArgsOutcome where
  /-- The files discovered in the default directory and the per-file results
  of `pdf_to_word_json`. -/
  processed : List (String × Option String)
  /-- The process exit status. -/
  exitCode : ℕ
deriving DecidableEq, Repr

/-- The no-arguments branch (lines 99–114): look in
`chapters/ancient-history`, process every file whose lowercased name ends in
`.pdf`, and in every case fall through to `sys.exit(1)` at line 114. -/
def runNoArgs (isprintable isspace : Char → Bool) (dirExists : Bool)
    (listing : List String) (envFor : String → Env) : NoArgsOutcome :=
  let default_dir := joinPath "chapters" "ancient-history"
  let processed :=
    if dirExists then
      let pdf_files_found :=
        (listing.filter lowerEndsWithPdf).map (fun f => joinPath default_dir f)
      if pdf_files_found ≠ [] then
        pdf_files_found.map
          (fun p => (p, (runExtract isprintable isspace (envFor p) p).retVal))
      else []
    else []
  { processed := processed, exitCode := 1 }

/-! Helper lemmas. -/

theorem ratFloor_eq (q : ℚ) : q.floor = ⌊q⌋ := rfl

theorem roundHalfEven_mono {x y : ℚ} (h : x ≤ y) :
    roundHalfEven x ≤ roundHalfEven y := by
  have hf : ⌊x⌋ ≤ ⌊y⌋ := Int.floor_mono h
  have hx1 : ((⌊x⌋ : ℤ) : ℚ) ≤ x := Int.floor_le x
  have hy2 : y < ((⌊y⌋ : ℤ) : ℚ) + 1 := Int.lt_floor_add_one y
  unfold roundHalfEven
  simp only [ratFloor_eq]
  rcases eq_or_lt_of_le hf with heq | hlt
  · have heq' : ((⌊x⌋ : ℤ) : ℚ) = ((⌊y⌋ : ℤ) : ℚ) := by exact_mod_cast heq
    split_ifs <;> first | omega | (exfalso; linarith)
  · split_ifs <;> omega

theorem roundHalfEven_intCast (n : ℤ) : roundHalfEven (n : ℚ) = n := by
  unfold roundHalfEven
  rw [ratFloor_eq, Int.floor_intCast, sub_self]
  norm_num

theorem round2_intCast (n : ℤ) : round2 (n : ℚ) = n := by
  unfold round2
  have h : (100 : ℚ) * n = ((100 * n : ℤ) : ℚ) := by push_cast; ring
  rw [h, roundHalfEven_intCast]
  push_cast
  field_simp

theorem round2_mono {x y : ℚ} (h : x ≤ y) : round2 x ≤ round2 y := by
  have h1 : roundHalfEven (100 * x) ≤ roundHalfEven (100 * y) :=
    roundHalfEven_mono (by linarith)
  have h2 : ((roundHalfEven (100 * x) : ℤ) : ℚ) ≤
      ((roundHalfEven (100 * y) : ℤ) : ℚ) := by exact_mod_cast h1
  unfold round2
  linarith

theorem cleanWord_eq_nil (isprintable isspace : Char → Bool) (l : List Char)
    (h : ∀ c ∈ l, isspace c = true ∨ isprintable c = false) :
    cleanWord isprintable isspace l = [] := by
  have hall : ∀ c ∈ l.filter isprintable, isspace c = true := by
    intro c hc
    rcases List.mem_filter.mp hc with ⟨hm, hp⟩
    rcases h c hm with h1 | h1
    · exact h1
    · rw [h1] at hp; cases hp
  unfold cleanWord stripChars
  rw [List.dropWhile_eq_nil_iff.mpr hall]
  simp

theorem processWord_some (isprintable isspace : Char → Bool) (H : ℚ)
    (w : RawWord) (r : WordRec)
    (h : processWord isprintable isspace H w = some r) :
    r.text = cleanWord isprintable isspace w.text ∧
    r.bbox = { x0 := round2 w.x0, y0 := round2 (H - w.y1),
               x1 := round2 w.x1, y1 := round2 (H - w.y0) } := by
  by_cases hc : cleanWord isprintable isspace w.text = []
  · simp [processWord, hc] at h
  · simp [processWord, hc] at h
    rw [← h]
    exact ⟨rfl, rfl⟩

/-! Concrete inputs used by the witnesses. -/

def allPrintable : Char → Bool := fun _ => true
def noSpace : Char → Bool := fun _ => false
def spaceOnly : Char → Bool := fun c => c == ' '

def wHello : RawWord := { x0 := 1, y0 := 2, x1 := 3, y1 := 4, text := ['a'] }
def rHello : WordRec := { text := ['a'], bbox := { x0 := 1, y0 := 6, x1 := 3, y1 := 8 } }
def wBlank : RawWord := { x0 := 0, y0 := 0, x1 := 0, y1 := 0, text := [' '] }

theorem round2_eval {q : ℚ} {n : ℤ} (h : q = (n : ℚ)) : round2 q = n := by
  rw [h, round2_intCast]

theorem processWord_wHello :
    processWord allPrintable noSpace 10 wHello = some rHello := by
  have h1 : round2 ((1 : ℚ)) = ((1 : ℤ) : ℚ) := round2_eval (by norm_num)
  have h3 : round2 ((3 : ℚ)) = ((3 : ℤ) : ℚ) := round2_eval (by norm_num)
  have h6 : round2 ((10 : ℚ) - 4) = ((6 : ℤ) : ℚ) := round2_eval (by norm_num)
  have h8 : round2 ((10 : ℚ) - 2) = ((8 : ℤ) : ℚ) := round2_eval (by norm_num)
  simp [processWord, cleanWord, stripChars, wHello, rHello, allPrintable,
    noSpace, h1, h3, h6, h8]

/-! Claim theorems. -/

/-- C1: for every word kept in the output, on a page of height `H` whose
library-reported top-left-origin bounding box is `(x0, y0, x1, y1)`, the
bbox written to the output record equals `(x0, H − y1, x1, H − y0)`, each of
the four coordinates rounded to 2 decimal places. -/
theorem claim1_bbox_transform (isprintable isspace : Char → Bool) (H : ℚ)
    (w : RawWord) (r : WordRec)
    (h : processWord isprintable isspace H w = some r) :
    r.bbox = { x0 := round2 w.x0, y0 := round2 (H - w.y1),
               x1 := round2 w.x1, y1 := round2 (H - w.y0) } :=
  (processWord_some isprintable isspace H w r h).2

/-- Witness for C1 at a concrete word: bbox `(1, 2, 3, 4)` on a page of
height 10 becomes `(1, 6, 3, 8)`. -/
theorem claim1_bbox_transform_witness :
    rHello.bbox = { x0 := round2 wHello.x0, y0 := round2 (10 - wHello.y1),
                    x1 := round2 wHello.x1, y1 := round2 (10 - wHello.y0) } :=
  claim1_bbox_transform allPrintable noSpace 10 wHello rHello processWord_wHello

/-- C4: the text is cleaned by removing non-printable characters and then
stripping surrounding whitespace; a word appears in the output iff the
cleaned text is non-empty, so no output word has empty text and a token of
only whitespace or non-printable characters never appears. -/
theorem claim4_word_filtering (isprintable isspace : Char → Bool) (H : ℚ)
    (w : RawWord) :
    ((processWord isprintable isspace H w).isSome ↔
      cleanWord isprintable isspace w.text ≠ []) ∧
    (∀ r : WordRec, processWord isprintable isspace H w = some r →
      r.text = cleanWord isprintable isspace w.text ∧ r.text ≠ []) ∧
    ((∀ c ∈ w.text, isspace c = true ∨ isprintable c = false) →
      processWord isprintable isspace H w = none) := by
  refine ⟨?_, ?_, ?_⟩
  · by_cases hc : cleanWord isprintable isspace w.text = [] <;>
      simp [processWord, hc]
  · intro r h
    have ht := (processWord_some isprintable isspace H w r h).1
    refine ⟨ht, ?_⟩
    intro hnil
    rw [hnil] at ht
    by_cases hc : cleanWord isprintable isspace w.text = []
    · simp [processWord, hc] at h
    · exact hc ht.symm
  · intro h
    simp [processWord, cleanWord_eq_nil isprintable isspace w.text h]

/-- Witness for C4: a whitespace-only token is dropped. -/
theorem claim4_word_filtering_witness :
    processWord allPrintable spaceOnly 5 wBlank = none :=
  (claim4_word_filtering allPrintable spaceOnly 5 wBlank).2.2 (by decide)

/-- C5: when the library-supplied top-left-origin bbox satisfies `x0 ≤ x1`
and `y0 ≤ y1`, the written bbox satisfies `bbox[0] ≤ bbox[2]` and
`bbox[1] ≤ bbox[3]`: the ordering is preserved by the y-flip and by the
2-decimal rounding. -/
theorem claim5_bbox_order (isprintable isspace : Char → Bool) (H : ℚ)
    (w : RawWord) (r : WordRec)
    (hx : w.x0 ≤ w.x1) (hy : w.y0 ≤ w.y1)
    (h : processWord isprintable isspace H w = some r) :
    r.bbox.x0 ≤ r.bbox.x1 ∧ r.bbox.y0 ≤ r.bbox.y1 := by
  have hb := (processWord_some isprintable isspace H w r h).2
  rw [hb]
  exact ⟨round2_mono hx, round2_mono (by linarith)⟩

/-- Witness for C5 at the same concrete word. -/
theorem claim5_bbox_order_witness :
    rHello.bbox.x0 ≤ rHello.bbox.x1 ∧ rHello.bbox.y0 ≤ rHello.bbox.y1 :=
  claim5_bbox_order allPrintable noSpace 10 wHello rHello (by norm_num [wHello])
    (by norm_num [wHello]) processWord_wHello

/-! Key-structure lemmas for the output mapping. -/

theorem buildPages_keys (isprintable isspace : Char → Bool) (idx : ℕ)
    (pages : List RawPage) :
    (buildPages isprintable isspace idx pages).map Prod.fst =
      (List.range pages.length).map (fun i => toString (idx + i + 1)) := by
  induction pages generalizing idx with
  | nil => simp [buildPages]
  | cons p rest ih =>
      rw [List.length_cons, List.range_succ_eq_map]
      simp only [buildPages, List.map_cons, List.map_map, ih]
      congr 1
      apply List.map_congr_left
      intro i _
      simp only [Function.comp]
      congr 1
      omega

theorem buildPages_key_page (isprintable isspace : Char → Bool) (idx : ℕ)
    (pages : List RawPage) :
    ∀ kv ∈ buildPages isprintable isspace idx pages,
      kv.1 = toString kv.2.page := by
  induction pages generalizing idx with
  | nil => intro kv h; cases h
  | cons p rest ih =>
      intro kv h
      rcases List.mem_cons.mp h with h | h
      · subst h; simp [processPage]
      · exact ih (idx + 1) kv h

def pagesTwo : List RawPage :=
  [{ height := 10, width := 20, words := [] },
   { height := 30, width := 40, words := [] }]

/-- C3: for every successfully processed N-page document the output mapping
has exactly N top-level keys, the decimal strings `"1"` through `"N"` in
order with no gaps, and each page record's `page` field is the integer its
key denotes. -/
theorem claim3_page_keys (isprintable isspace : Char → Bool)
    (pages : List RawPage) :
    (buildJson isprintable isspace pages).length = pages.length ∧
    (buildJson isprintable isspace pages).map Prod.fst =
      (List.range pages.length).map (fun i => toString (i + 1)) ∧
    ∀ kv ∈ buildJson isprintable isspace pages, kv.1 = toString kv.2.page := by
  have hk := buildPages_keys isprintable isspace 0 pages
  simp only [Nat.zero_add] at hk
  have hlen : (buildPages isprintable isspace 0 pages).length = pages.length := by
    have h2 := congrArg List.length hk
    simpa using h2
  exact ⟨hlen, hk, buildPages_key_page isprintable isspace 0 pages⟩

/-- Witness for C3 on a concrete two-page document: the keys are exactly
`"1"` and `"2"`. -/
theorem claim3_page_keys_witness :
    (buildJson allPrintable noSpace pagesTwo).map Prod.fst =
      (List.range pagesTwo.length).map (fun i => toString (i + 1)) :=
  (claim3_page_keys allPrintable noSpace pagesTwo).2.1

/-! Claims about the effect model. -/

def pageEmpty : RawPage := { height := 792, width := 612, words := [] }

/-- The environment of C2's failing input: `fitz.open` succeeds on a one-page
document and an exception is raised while processing page 0 of the loop. -/
def envLoopCrash : Env :=
  { openDoc := some [pageEmpty], failAtPage := some 0,
    write := WriteBehavior.ok, preExisting := false }

/-- C2 is violated by the code: when an exception is raised during the
per-page loop, control jumps from inside the loop to the except branch and
`doc.close()` (line 81) never runs — there is no `finally`. On this failing
input the document was opened but is not closed when the call returns. -/
theorem claim2_loop_error_skips_close :
    (runExtract allPrintable noSpace envLoopCrash "a.pdf").docOpened = true ∧
    (runExtract allPrintable noSpace envLoopCrash "a.pdf").docClosed = false ∧
    (runExtract allPrintable noSpace envLoopCrash "a.pdf").retVal = none :=
  ⟨rfl, rfl, rfl⟩

/-- C6: whenever the call fails (open failure, a per-page failure, or a write
failure) it returns `None`, leaves no file at the output path, and prints a
diagnostic naming the input path; on success it returns the output path. -/
theorem claim6_error_cleanup (isprintable isspace : Char → Bool) (env : Env)
    (pdf_path : String) :
    (envFails env →
      (runExtract isprintable isspace env pdf_path).retVal = none ∧
      (runExtract isprintable isspace env pdf_path).fileExistsAfter = false ∧
      (runExtract isprintable isspace env pdf_path).errorFor = some pdf_path) ∧
    (¬envFails env →
      (runExtract isprintable isspace env pdf_path).retVal =
        some (outputPath pdf_path)) := by
  obtain ⟨od, fp, wr, pre⟩ := env
  cases od with
  | none =>
      refine ⟨fun _ => ?_, fun h => absurd (Or.inl rfl) h⟩
      simp [runExtract, exceptBranch]
  | some pages =>
      cases fp with
      | some k =>
          by_cases hk : k < pages.length
          · refine ⟨fun _ => ?_, fun h => absurd ?_ h⟩
            · simp [runExtract, exceptBranch, hk]
            · exact Or.inr (Or.inl ⟨pages, k, rfl, rfl, hk⟩)
          · cases wr with
            | ok =>
                refine ⟨fun hfail => ?_, fun _ => ?_⟩
                · exfalso
                  rcases hfail with h | ⟨pages', k', hp, hkk, hlt⟩ | h
                  · cases h
                  · cases hp; cases hkk; exact hk hlt
                  · exact h rfl
                · simp [runExtract, hk]
            | openFail =>
                refine ⟨fun _ => ?_,
                  fun h => absurd (Or.inr (Or.inr (by simp))) h⟩
                simp [runExtract, exceptBranch, hk]
            | dumpFail =>
                refine ⟨fun _ => ?_,
                  fun h => absurd (Or.inr (Or.inr (by simp))) h⟩
                simp [runExtract, exceptBranch, hk]
      | none =>
          cases wr with
          | ok =>
              refine ⟨fun hfail => ?_, fun _ => ?_⟩
              · exfalso
                rcases hfail with h | ⟨pages', k', hp, hkk, hlt⟩ | h
                · cases h
                · cases hkk
                · exact h rfl
              · simp [runExtract]
          | openFail =>
              refine ⟨fun _ => ?_,
                fun h => absurd (Or.inr (Or.inr (by simp))) h⟩
              simp [runExtract, exceptBranch]
          | dumpFail =>
              refine ⟨fun _ => ?_,
                fun h => absurd (Or.inr (Or.inr (by simp))) h⟩
              simp [runExtract, exceptBranch]

/-- The environment of C6's witness: `fitz.open` raises, nothing else runs. -/
def envOpenCrash : Env :=
  { openDoc := none, failAtPage := none,
    write := WriteBehavior.ok, preExisting := false }

/-- Witness for C6 at an open failure. -/
theorem claim6_error_cleanup_witness :
    (runExtract allPrintable noSpace envOpenCrash "doc.pdf").retVal = none ∧
    (runExtract allPrintable noSpace envOpenCrash "doc.pdf").fileExistsAfter = false ∧
    (runExtract allPrintable noSpace envOpenCrash "doc.pdf").errorFor =
      some "doc.pdf" :=
  (claim6_error_cleanup allPrintable noSpace envOpenCrash "doc.pdf").1
    (Or.inl rfl)

/-- C7: `sanitize_filename` strips directory components and the extension,
then replaces every character that is not alphanumeric, underscore, or
hyphen with an underscore — its result coincides with the claim's
description `sanitizeSpec` for every input and every regex-engine notion of
alphanumeric. -/
theorem claim7_sanitize_spec_equiv (isalnum : Char → Bool)
    (filename : String) :
    sanitize_filename isalnum filename = sanitizeSpec isalnum filename := by
  unfold sanitize_filename sanitizeSpec
  apply congrArg
  apply List.map_congr_left
  intro c _
  by_cases h1 : isalnum c <;> by_cases h2 : c = '_' <;> by_cases h3 : c = '-' <;>
    simp [h1, h2, h3]

/-- C8: each command-line argument is validated independently; an argument
that is not an existing file with a case-insensitive `.pdf` extension is
skipped (extraction never runs for it), every validated argument is
processed, and the batch always yields one event per argument — no failure
aborts the rest. -/
theorem claim8_batch_independent (isprintable isspace : Char → Bool)
    (isFile : String → Bool) (envFor : String → Env) (args : List String) :
    runBatch isprintable isspace isFile envFor args =
      args.map (fun a =>
        if isFile a && lowerEndsWithPdf a then
          ArgEvent.processed a
            (runExtract isprintable isspace (envFor a) a).retVal
        else ArgEvent.skipped a) ∧
    (runBatch isprintable isspace isFile envFor args).length = args.length := by
  have hmap : runBatch isprintable isspace isFile envFor args =
      args.map (fun a =>
        if isFile a && lowerEndsWithPdf a then
          ArgEvent.processed a
            (runExtract isprintable isspace (envFor a) a).retVal
        else ArgEvent.skipped a) := by
    induction args with
    | nil => rfl
    | cons a rest ih => simp [runBatch, ih]
  exact ⟨hmap, by rw [hmap]; simp⟩

/-- C9: with no command-line arguments the process exits with status 1
unconditionally — also when the default directory exists, PDFs are found,
and every extraction succeeds (`sys.exit(1)` at line 114 runs in every case
of the no-arguments branch). -/
theorem claim9_noargs_exit_one (isprintable isspace : Char → Bool)
    (dirExists : Bool) (listing : List String) (envFor : String → Env) :
    (runNoArgs isprintable isspace dirExists listing envFor).exitCode = 1 :=
  rfl

/-- C10: when the document cannot be opened and a file already exists at the
computed output path, the cleanup branch deletes that pre-existing file and
the call returns `None` — the output path is computed before `fitz.open`
runs, and the cleanup removes whatever exists at that path. -/
theorem claim10_preexisting_removed (isprintable isspace : Char → Bool)
    (fp : Option ℕ) (wr : WriteBehavior) (pdf_path : String) :
    (runExtract isprintable isspace
      { openDoc := none, failAtPage := fp, write := wr, preExisting := true }
      pdf_path).removed = true ∧
    (runExtract isprintable isspace
      { openDoc := none, failAtPage := fp, write := wr, preExisting := true }
      pdf_path).fileExistsAfter = false ∧
    (runExtract isprintable isspace
      { openDoc := none, failAtPage := fp, write := wr, preExisting := true }
      pdf_path).retVal = none :=
  ⟨rfl, rfl, rfl⟩
